import Mathlib

/-
Verification of the uap-rs user-agent parser core (src/parser/mod.rs).

The source file embeds:
  * `none_if_empty` and `replace` (template substitution over regex captures),
  * the three family evaluators `parse_device` / `parse_os` / `parse_user_agent`
    and the top-level `parse`,
  * the construction path `UserAgentParser::try_from`, which fans compilation out
    over contiguous chunks (rayon `try_fold` / `try_reduce`) and concatenates.

The per-family matcher modules (device.rs / os.rs / user_agent.rs), the result
structs (Device / OS / UserAgent / Client) and the raw pattern-file schema are not
part of the provided source; they are modelled from the specification and marked
`Modelled from the spec:` in their doc comments.  The external regex engine
(fancy_regex) is out of the core's scope and is modelled by its observable
behavior: a compiled regex is a total function from an input string to either an
engine error or an optional capture set.
-/

namespace Uap

/-- Unicode code points with the White_Space property, as used by Rust's
`char::is_whitespace` (called by `str::trim` inside `replace`). -/
def wsCodes : List Nat :=
  [0x9, 0xA, 0xB, 0xC, 0xD, 0x20, 0x85, 0xA0, 0x1680,
   0x2000, 0x2001, 0x2002, 0x2003, 0x2004, 0x2005, 0x2006, 0x2007, 0x2008,
   0x2009, 0x200A, 0x2028, 0x2029, 0x202F, 0x205F, 0x3000]

/-- Rust `char::is_whitespace`. -/
def isRustWhitespace (c : Char) : Bool :=
  wsCodes.contains c.toNat

/-- Rust `str::trim` on a character list: drop whitespace from both ends. -/
def trimChars (l : List Char) : List Char :=
  ((l.dropWhile isRustWhitespace).reverse.dropWhile isRustWhitespace).reverse

/-- Rust `str::trim`. -/
def strTrim (s : String) : String :=
  ⟨trimChars s.data⟩

/-- Rust `str::contains(char)`. -/
def containsChar (s : String) (c : Char) : Bool :=
  s.data.contains c

/-- Core of Rust `str::replace`: replace every non-overlapping occurrence of
`pat` in the subject, scanning left to right and never rescanning the inserted
replacement.  The fuel argument (initially the subject length) makes the
recursion structural; every step consumes at least one subject character, so
fuel equal to the subject length is never exhausted.  (`str::replace` with an
empty pattern is never exercised by the source: the patterns are `"$1"`,
`"$2"`, ... which are nonempty; for an empty pattern this model returns the
subject unchanged.) -/
def replCharsAux (pat rep : List Char) : Nat → List Char → List Char
  | 0, s => s
  | _ + 1, [] => []
  | fuel + 1, c :: rest =>
    if pat ≠ [] ∧ pat.isPrefixOf (c :: rest) then
      rep ++ replCharsAux pat rep fuel (rest.drop (pat.length - 1))
    else
      c :: replCharsAux pat rep fuel rest

/-- Rust `str::replace` on character lists. -/
def replChars (pat rep s : List Char) : List Char :=
  replCharsAux pat rep s.length s

/-- Rust `str::replace`: `s.replace(pat, rep)`. -/
def strReplace (s pat rep : String) : String :=
  ⟨replChars pat.data rep.data s.data⟩

/-- A capture set of a successful regex match: entry `i` is group `i`'s text
(`none` when the group did not participate), entry 0 the whole match.  The Rust
side is `fancy_regex::Captures`; its `len()` counts group 0, so it is the number
of explicit groups plus one. -/
def capGet (captures : List (Option String)) (i : Nat) : String :=
  match captures.get? i with
  | some (some m) => m
  | _ => ""

/-- One pass of the fold inside `replace`: plain-substring-replace `"$i"` by
group `i`'s text (`captures.get(i).map(|x| x.as_str()).unwrap_or("")`). -/
def subStep (captures : List (Option String)) (state : String) (i : Nat) : String :=
  strReplace state ("$" ++ toString i) (capGet captures i)

/-- The fold inside `replace` (src/parser/mod.rs lines 203-207): for
`i = 1 ..= captures.len()` in increasing order, plain-substring-replace `"$i"`
by group `i`'s text (empty when absent). -/
def subFold (replacement : String) (captures : List (Option String)) : String :=
  (List.range' 1 captures.length).foldl (subStep captures) replacement

/-- src/parser/mod.rs lines 201-213: template substitution.  When the template
contains a `$` and the capture set is nonempty, run the substitution fold and
trim the result; otherwise return the template verbatim. -/
def replace (replacement : String) (captures : List (Option String)) : String :=
  if containsChar replacement '$' ∧ 0 < captures.length then
    strTrim (subFold replacement captures)
  else
    replacement

/-- src/parser/mod.rs lines 193-199. -/
def none_if_empty (s : String) : Option String :=
  if !s.isEmpty then some s else none

/-- Modelled from the spec: the external regex engine (fancy_regex) is out of the
core's scope; a compiled regex is modelled by its match-time behavior, a pure
total function from the input string to either an engine evaluation error or an
optional capture set (mirroring `fancy_regex::Regex::captures`, which returns
`Result<Option<Captures>>`). -/
structure Regex where
  run : String → Except String (Option (List (Option String)))

/-- Modelled from the spec (§3): Device result struct, optional string fields
brand / model / device-family-name; the default value has every field absent. -/
structure Device where
  family : Option String
  brand : Option String
  model : Option String

/-- Modelled from the spec: the no-match default Device value. -/
def Device.default : Device := ⟨none, none, none⟩

/-- Modelled from the spec (§3): OS result struct, optional OS family name and up
to 4 version components. -/
structure OS where
  family : Option String
  major : Option String
  minor : Option String
  patch : Option String
  patch_minor : Option String

/-- Modelled from the spec: the no-match default OS value. -/
def OS.default : OS := ⟨none, none, none, none, none⟩

/-- Modelled from the spec (§3): UserAgent result struct, optional user-agent
family name and up to 3 version components. -/
structure UserAgent where
  family : Option String
  major : Option String
  minor : Option String
  patch : Option String

/-- Modelled from the spec: the no-match default UserAgent value. -/
def UserAgent.default : UserAgent := ⟨none, none, none, none⟩

/-- Modelled from the spec (§3): the combined result, one Device, one OS, one
UserAgent, with no cross-family invariant. -/
structure Client where
  device : Device
  os : OS
  user_agent : UserAgent

/-- Modelled from the spec (§4.2 steps 2-4): the value of one output field.
With a configured template, substitute and report empty as absent (the trim is
performed inside `replace`); with no template, take the designated default
capture group's text, empty again reported as absent. -/
def fieldVal (template : Option String) (caps : List (Option String))
    (defaultGroup : Nat) : Option String :=
  match template with
  | some r => none_if_empty (replace r caps)
  | none => none_if_empty (capGet caps defaultGroup)

/-- Modelled from the spec (§4.2 step 5): which field a device override rule
refines. -/
inductive OverrideTarget where
  | family
  | brand
  | model

/-- Modelled from the spec (§3, §4.2 step 5): a compiled device override
sub-rule: its own regex, a replacement template, the field it refines, and
whether its regex is evaluated against the original input string rather than
the extracted field text. -/
structure DeviceOverride where
  regex : Regex
  replacement : String
  target : OverrideTarget
  useOriginal : Bool

/-- Modelled from the spec (missing module parser/device.rs): a compiled device
matcher: one compiled regex, the output-field templates, the compiled override
sub-rules. -/
structure DeviceMatcher where
  regex : Regex
  device_replacement : Option String
  brand_replacement : Option String
  model_replacement : Option String
  overrides : List DeviceOverride

/-- Modelled from the spec (missing module parser/os.rs): a compiled OS
matcher. -/
structure OSMatcher where
  regex : Regex
  os_replacement : Option String
  os_v1_replacement : Option String
  os_v2_replacement : Option String
  os_v3_replacement : Option String
  os_v4_replacement : Option String

/-- Modelled from the spec (missing module parser/user_agent.rs): a compiled
user-agent matcher. -/
structure UAMatcher where
  regex : Regex
  family_replacement : Option String
  v1_replacement : Option String
  v2_replacement : Option String
  v3_replacement : Option String

/-- Read the device field an override rule targets. -/
def getTarget (d : Device) (t : OverrideTarget) : Option String :=
  match t with
  | OverrideTarget.family => d.family
  | OverrideTarget.brand => d.brand
  | OverrideTarget.model => d.model

/-- Replace the device field an override rule targets. -/
def setTarget (d : Device) (t : OverrideTarget) (v : Option String) : Device :=
  match t with
  | OverrideTarget.family => ⟨v, d.brand, d.model⟩
  | OverrideTarget.brand => ⟨d.family, v, d.model⟩
  | OverrideTarget.model => ⟨d.family, d.brand, v⟩

/-- Modelled from the spec (§4.2 step 5): apply one override rule after the
primary device extraction.  The rule's regex runs against the extracted value of
its target field (or the original input, depending on the rule type); on a
match the target field is refined through the same substitute-and-trim path;
a no-match or engine error leaves the field unchanged. -/
def DeviceOverride.apply (text : String) (d : Device) (o : DeviceOverride) : Device :=
  match o.regex.run (if o.useOriginal then text else (getTarget d o.target).getD "") with
  | Except.ok (some caps) =>
    setTarget d o.target (none_if_empty (replace o.replacement caps))
  | _ => d

/-- Modelled from the spec (§4.2, missing module parser/device.rs): attempt
extraction.  Engine evaluation errors and plain no-matches are both "no match";
on a match the three fields are substituted (default capture groups 1, 2, 3)
and the override rules are then re-applied. -/
def DeviceMatcher.try_parse (m : DeviceMatcher) (text : String) : Option Device :=
  match m.regex.run text with
  | Except.ok (some caps) =>
    let base : Device :=
      ⟨fieldVal m.device_replacement caps 1,
       fieldVal m.brand_replacement caps 2,
       fieldVal m.model_replacement caps 3⟩
    some (m.overrides.foldl (DeviceOverride.apply text) base)
  | _ => none

/-- Modelled from the spec (§4.2, missing module parser/os.rs): attempt
extraction; family defaults to capture group 1, the version components to
groups 2-5. -/
def OSMatcher.try_parse (m : OSMatcher) (text : String) : Option OS :=
  match m.regex.run text with
  | Except.ok (some caps) =>
    some ⟨fieldVal m.os_replacement caps 1,
          fieldVal m.os_v1_replacement caps 2,
          fieldVal m.os_v2_replacement caps 3,
          fieldVal m.os_v3_replacement caps 4,
          fieldVal m.os_v4_replacement caps 5⟩
  | _ => none

/-- Modelled from the spec (§4.2, missing module parser/user_agent.rs): attempt
extraction; family defaults to capture group 1, the version components to
groups 2-4. -/
def UAMatcher.try_parse (m : UAMatcher) (text : String) : Option UserAgent :=
  match m.regex.run text with
  | Except.ok (some caps) =>
    some ⟨fieldVal m.family_replacement caps 1,
          fieldVal m.v1_replacement caps 2,
          fieldVal m.v2_replacement caps 3,
          fieldVal m.v3_replacement caps 4⟩
  | _ => none

/-- src/parser/mod.rs lines 33-38: the parser owns one matcher list per
family. -/
structure UserAgentParser where
  device_matchers : List DeviceMatcher
  os_matchers : List OSMatcher
  user_agent_matchers : List UAMatcher

/-- The family evaluation common to the three `parse_*` functions:
`matchers.iter().filter_map(|m| m.try_parse(ua)).take(1).next().unwrap_or_default()`. -/
def firstMatch {μ ρ : Type} (tp : μ → Option ρ) (matchers : List μ) (d : ρ) : ρ :=
  (((matchers.filterMap tp).take 1).head?).getD d

/-- src/parser/mod.rs lines 55-62. -/
def UserAgentParser.parse_device (p : UserAgentParser) (user_agent : String) : Device :=
  firstMatch (fun m => DeviceMatcher.try_parse m user_agent) p.device_matchers Device.default

/-- src/parser/mod.rs lines 65-72. -/
def UserAgentParser.parse_os (p : UserAgentParser) (user_agent : String) : OS :=
  firstMatch (fun m => OSMatcher.try_parse m user_agent) p.os_matchers OS.default

/-- src/parser/mod.rs lines 75-82. -/
def UserAgentParser.parse_user_agent (p : UserAgentParser) (user_agent : String) : UserAgent :=
  firstMatch (fun m => UAMatcher.try_parse m user_agent) p.user_agent_matchers UserAgent.default

/-- src/parser/mod.rs lines 42-52. -/
def UserAgentParser.parse (p : UserAgentParser) (user_agent : String) : Client :=
  ⟨p.parse_device user_agent, p.parse_os user_agent, p.parse_user_agent user_agent⟩

/-- Modelled from the spec (missing module parser/device.rs): the device
pattern-compilation error, carrying the offending pattern source and the
engine's message. -/
structure DeviceError where
  pattern : String
  msg : String

/-- Modelled from the spec (missing module parser/os.rs): the OS
pattern-compilation error. -/
structure OSError where
  pattern : String
  msg : String

/-- Modelled from the spec (missing module parser/user_agent.rs): the
user-agent pattern-compilation error. -/
structure UserAgentError where
  pattern : String
  msg : String

/-- src/parser/mod.rs lines 22-29: the construction error, a tagged union.
The source names the first variant `IO`; it is named `IOErr` here. -/
inductive Error where
  | IOErr (msg : String)
  | Yaml (msg : String)
  | Device (e : DeviceError)
  | OS (e : OSError)
  | UserAgent (e : UserAgentError)

/-- Modelled from the spec: the external regex engine's compilation step,
turning one pattern source string into a compiled regex or a syntax error. -/
structure RegexEngine where
  compile : String → Except String Regex

/-- Modelled from the spec (§6): a raw device override sub-rule record: a
pattern-source string plus a replacement template (with its rule type). -/
structure OverrideEntry where
  regex : String
  replacement : String
  target : OverrideTarget
  useOriginal : Bool

/-- Modelled from the spec (§6): a raw device pattern record. -/
structure DeviceParserEntry where
  regex : String
  device_replacement : Option String
  brand_replacement : Option String
  model_replacement : Option String
  overrides : List OverrideEntry

/-- Modelled from the spec (§6): a raw OS pattern record. -/
structure OSParserEntry where
  regex : String
  os_replacement : Option String
  os_v1_replacement : Option String
  os_v2_replacement : Option String
  os_v3_replacement : Option String
  os_v4_replacement : Option String

/-- Modelled from the spec (§6): a raw user-agent pattern record. -/
structure UserAgentParserEntry where
  regex : String
  family_replacement : Option String
  v1_replacement : Option String
  v2_replacement : Option String
  v3_replacement : Option String

/-- src/file.rs (not in scope), as described by the spec (§6): the three ordered
lists of raw pattern records. -/
structure RegexFile where
  device_parsers : List DeviceParserEntry
  os_parsers : List OSParserEntry
  user_agent_parsers : List UserAgentParserEntry

/-- Modelled from the spec (§4.1): compile one device override sub-rule; a
regex compilation failure is an error carrying the offending pattern. -/
def DeviceOverride.try_from (eng : RegexEngine) (e : OverrideEntry) :
    Except DeviceError DeviceOverride :=
  match eng.compile e.regex with
  | Except.ok r => Except.ok ⟨r, e.replacement, e.target, e.useOriginal⟩
  | Except.error msg => Except.error ⟨e.regex, msg⟩

/-- Modelled from the spec (§4.1, missing module parser/device.rs): compile one
raw device record into a matcher; templates are stored verbatim, override rules
are compiled through the same path with the same error semantics. -/
def DeviceMatcher.try_from (eng : RegexEngine) (e : DeviceParserEntry) :
    Except DeviceError DeviceMatcher :=
  match eng.compile e.regex with
  | Except.error msg => Except.error ⟨e.regex, msg⟩
  | Except.ok r =>
    match e.overrides.mapM (DeviceOverride.try_from eng) with
    | Except.error er => Except.error er
    | Except.ok ovs =>
      Except.ok ⟨r, e.device_replacement, e.brand_replacement, e.model_replacement, ovs⟩

/-- Modelled from the spec (§4.1, missing module parser/os.rs): compile one raw
OS record into a matcher. -/
def OSMatcher.try_from (eng : RegexEngine) (e : OSParserEntry) :
    Except OSError OSMatcher :=
  match eng.compile e.regex with
  | Except.error msg => Except.error ⟨e.regex, msg⟩
  | Except.ok r =>
    Except.ok ⟨r, e.os_replacement, e.os_v1_replacement, e.os_v2_replacement,
               e.os_v3_replacement, e.os_v4_replacement⟩

/-- Modelled from the spec (§4.1, missing module parser/user_agent.rs): compile
one raw user-agent record into a matcher. -/
def UAMatcher.try_from (eng : RegexEngine) (e : UserAgentParserEntry) :
    Except UserAgentError UAMatcher :=
  match eng.compile e.regex with
  | Except.error msg => Except.error ⟨e.regex, msg⟩
  | Except.ok r =>
    Except.ok ⟨r, e.family_replacement, e.v1_replacement, e.v2_replacement,
               e.v3_replacement⟩

/-- The `?`-conversion applied by `try_from` (src/parser/mod.rs lines 122, 141,
160 together with the `From` impls of lines 22-29): a family compilation error
is wrapped into the tagged `Error`. -/
def wrapCompile {ε μ σ : Type} (tf : ε → Except σ μ) (wrap : σ → Error) (e : ε) :
    Except Error μ :=
  match tf e with
  | Except.ok m => Except.ok m
  | Except.error er => Except.error (wrap er)

/-- One rayon `try_fold` unit (src/parser/mod.rs lines 119-126 and analogues):
sequentially compile a contiguous chunk, pushing each compiled matcher onto the
accumulator vector, stopping at the first error. -/
def tryFoldChunkAux {ε μ : Type} (compile : ε → Except Error μ) (v : List μ) :
    List ε → Except Error (List μ)
  | [] => Except.ok v
  | e :: es =>
    match compile e with
    | Except.error er => Except.error er
    | Except.ok m => tryFoldChunkAux compile (v ++ [m]) es

/-- One rayon `try_fold` unit started from the empty vector. -/
def tryFoldChunk {ε μ : Type} (compile : ε → Except Error μ) (chunk : List ε) :
    Except Error (List μ) :=
  tryFoldChunkAux compile [] chunk

/-- The shape of one rayon fan-out: the record list is split into contiguous
chunks at the leaves of a binary splitting tree. -/
inductive ChunkTree (ε : Type) where
  | leaf (chunk : List ε)
  | node (l r : ChunkTree ε)

/-- The record list a splitting tree covers, in original order. -/
def ChunkTree.flatten {ε : Type} : ChunkTree ε → List ε
  | ChunkTree.leaf c => c
  | ChunkTree.node l r => ChunkTree.flatten l ++ ChunkTree.flatten r

/-- The rayon `try_fold` / `try_reduce` pipeline of src/parser/mod.rs lines
116-171 over one splitting tree: each leaf chunk is compiled by `try_fold`, and
`try_reduce` merges adjacent results by `v1.extend(v2)`, preserving the
original order.  (When several chunks fail, rayon may surface any one of the
errors; this deterministic model surfaces the leftmost, which coincides with
rayon whenever at most one chunk fails, and in particular on all-successful
input.) -/
def ChunkTree.compileM {ε μ : Type} (compile : ε → Except Error μ) :
    ChunkTree ε → Except Error (List μ)
  | ChunkTree.leaf c => tryFoldChunk compile c
  | ChunkTree.node l r =>
    match ChunkTree.compileM compile l with
    | Except.error er => Except.error er
    | Except.ok v1 =>
      match ChunkTree.compileM compile r with
      | Except.error er => Except.error er
      | Except.ok v2 => Except.ok (v1 ++ v2)

/-- Sequential in-order compilation of one family's record list: the reference
semantics of the fan-out (the source keeps it as the commented-out loop of
src/parser/mod.rs lines 173-183), equal to `ChunkTree.compileM` on every
splitting tree (proved below). -/
def compileFamilySeq {ε μ : Type} (compile : ε → Except Error μ) :
    List ε → Except Error (List μ)
  | [] => Except.ok []
  | e :: es =>
    match compile e with
    | Except.error er => Except.error er
    | Except.ok m =>
      match compileFamilySeq compile es with
      | Except.error er => Except.error er
      | Except.ok ms => Except.ok (m :: ms)

/-- src/parser/mod.rs lines 115-191: construct the parser from a `RegexFile`,
compiling the three families in order (device, then OS, then user-agent) and
failing on the first record that does not compile.  The rayon fan-out is
modelled by `ChunkTree.compileM`; by the order-preservation theorem below it
computes `compileFamilySeq` on every splitting tree, so the construction is
defined by the sequential reference semantics. -/
def UserAgentParser.try_from (eng : RegexEngine) (f : RegexFile) :
    Except Error UserAgentParser :=
  match compileFamilySeq (wrapCompile (DeviceMatcher.try_from eng) Error.Device)
      f.device_parsers with
  | Except.error er => Except.error er
  | Except.ok dms =>
    match compileFamilySeq (wrapCompile (OSMatcher.try_from eng) Error.OS)
        f.os_parsers with
    | Except.error er => Except.error er
    | Except.ok oms =>
      match compileFamilySeq (wrapCompile (UAMatcher.try_from eng) Error.UserAgent)
          f.user_agent_parsers with
      | Except.error er => Except.error er
      | Except.ok ums => Except.ok ⟨dms, oms, ums⟩

/- ------------------------------------------------------------------ -/
/- Helper lemmas on the string machinery.                              -/
/- ------------------------------------------------------------------ -/

theorem replCharsAux_not_infix (pat rep : List Char) :
    ∀ (fuel : Nat) (s : List Char), ¬ (pat <:+: s) → replCharsAux pat rep fuel s = s := by
  intro fuel
  induction fuel with
  | zero => intro s _; rfl
  | succ n ih =>
    intro s h
    cases s with
    | nil => rfl
    | cons c rest =>
      have hnp : ¬ (pat ≠ [] ∧ pat.isPrefixOf (c :: rest) = true) := by
        rintro ⟨_, hpre⟩
        exact h (List.IsPrefix.isInfix (List.isPrefixOf_iff_prefix.mp hpre))
      simp only [replCharsAux, if_neg hnp]
      rw [ih rest (fun hinf => h (List.infix_cons hinf))]

theorem strReplace_not_infix (s pat rep : String) (h : ¬ (pat.data <:+: s.data)) :
    strReplace s pat rep = s := by
  show String.mk (replChars pat.data rep.data s.data) = s
  rw [replChars, replCharsAux_not_infix _ _ _ _ h]

theorem dollar_head_data (t : String) : ("$" ++ t).data = '$' :: t.data := rfl

theorem containsChar_dollar_append (t : String) : containsChar ("$" ++ t) '$' = true := rfl

theorem subStep_no_op (caps : List (Option String)) (s : String) (i : Nat)
    (h : ¬ (('$' :: (toString i).data) <:+: s.data)) : subStep caps s i = s := by
  show strReplace s ("$" ++ toString i) (capGet caps i) = s
  apply strReplace_not_infix
  rw [dollar_head_data]
  exact h

theorem foldl_subStep_no_op (caps : List (Option String)) (l : List Nat) (s : String)
    (h : ∀ j ∈ l, ¬ (('$' :: (toString j).data) <:+: s.data)) :
    l.foldl (subStep caps) s = s := by
  induction l with
  | nil => rfl
  | cons j l ih =>
    rw [List.foldl_cons, subStep_no_op caps s j (h j (List.mem_cons_self j l))]
    exact ih (fun k hk => h k (List.mem_cons_of_mem j hk))

theorem foldl_subStep_no_dollar (caps : List (Option String)) (l : List Nat) (s : String)
    (h : '$' ∉ s.data) : l.foldl (subStep caps) s = s :=
  foldl_subStep_no_op caps l s
    (fun _ _ hinf => h (hinf.subset (List.mem_cons_self _ _)))

theorem dropWhile_dropWhile {α : Type} (p : α → Bool) (l : List α) :
    (l.dropWhile p).dropWhile p = l.dropWhile p := by
  induction l with
  | nil => rfl
  | cons a l ih =>
    by_cases h : p a
    · rw [List.dropWhile_cons_of_pos h]; exact ih
    · rw [List.dropWhile_cons_of_neg h, List.dropWhile_cons_of_neg h]

theorem trimChars_idem (l : List Char) : trimChars (trimChars l) = trimChars l := by
  unfold trimChars
  generalize hm : l.dropWhile isRustWhitespace = m
  have hmm : m.dropWhile isRustWhitespace = m := by
    rw [← hm]; exact dropWhile_dropWhile _ _
  generalize ht : (m.reverse.dropWhile isRustWhitespace).reverse = t
  have htrev : t.reverse = m.reverse.dropWhile isRustWhitespace := by
    rw [← ht, List.reverse_reverse]
  have hpref : t <+: m := by
    have hsuf : m.reverse.dropWhile isRustWhitespace <:+ m.reverse :=
      List.dropWhile_suffix _
    rw [← htrev] at hsuf
    exact List.reverse_suffix.mp hsuf
  have h1 : t.dropWhile isRustWhitespace = t := by
    cases t with
    | nil => rfl
    | cons c t' =>
      obtain ⟨r, hr⟩ := hpref
      rw [← hr] at hmm
      have hc : isRustWhitespace c = false := by
        by_contra hcc
        have hct : isRustWhitespace c = true := by
          revert hcc; cases isRustWhitespace c <;> simp
        rw [List.cons_append, List.dropWhile_cons_of_pos hct] at hmm
        have hlen := congrArg List.length hmm
        have hle := List.Sublist.length_le (List.dropWhile_sublist (l := t' ++ r) isRustWhitespace)
        simp only [List.length_cons] at hlen
        omega
      exact List.dropWhile_cons_of_neg (by simp [hc])
  have h2 : t.reverse.dropWhile isRustWhitespace = t.reverse := by
    rw [htrev]; exact dropWhile_dropWhile _ _
  rw [h1, h2, List.reverse_reverse]

theorem strTrim_idem (s : String) : strTrim (strTrim s) = strTrim s :=
  congrArg String.mk (trimChars_idem s.data)

theorem trimChars_all_ws (l : List Char) (h : ∀ c ∈ l, isRustWhitespace c = true) :
    trimChars l = [] := by
  unfold trimChars
  rw [show l.dropWhile isRustWhitespace = [] from
    List.dropWhile_eq_nil_iff.mpr (by intro x hx; exact h x hx)]
  rfl

theorem none_if_empty_ne_empty (s : String) : none_if_empty s ≠ some "" := by
  intro hcontra
  unfold none_if_empty at hcontra
  cases h : s.isEmpty with
  | true => rw [h] at hcontra; simp at hcontra
  | false =>
    rw [h] at hcontra
    simp at hcontra
    rw [hcontra] at h
    exact absurd h (by decide)

theorem fieldVal_ne_empty (template : Option String) (caps : List (Option String))
    (g : Nat) : fieldVal template caps g ≠ some "" := by
  unfold fieldVal
  cases template with
  | none => exact none_if_empty_ne_empty _
  | some r => exact none_if_empty_ne_empty _

/- ------------------------------------------------------------------ -/
/- Helper lemmas on the family evaluation.                             -/
/- ------------------------------------------------------------------ -/

theorem firstMatch_cons_some {μ ρ : Type} (tp : μ → Option ρ) (m : μ) (ms : List μ)
    (d : ρ) (r : ρ) (h : tp m = some r) : firstMatch tp (m :: ms) d = r := by
  unfold firstMatch
  rw [List.filterMap_cons_some h]
  rfl

theorem firstMatch_cons_none {μ ρ : Type} (tp : μ → Option ρ) (m : μ) (ms : List μ)
    (d : ρ) (h : tp m = none) : firstMatch tp (m :: ms) d = firstMatch tp ms d := by
  unfold firstMatch
  rw [List.filterMap_cons_none h]

theorem firstMatch_first {μ ρ : Type} (tp : μ → Option ρ) (ms1 : List μ) (m : μ)
    (ms2 : List μ) (d : ρ) (r : ρ) (h1 : ∀ m' ∈ ms1, tp m' = none)
    (h2 : tp m = some r) : firstMatch tp (ms1 ++ m :: ms2) d = r := by
  unfold firstMatch
  rw [List.filterMap_append,
    List.filterMap_eq_nil_iff.mpr h1,
    List.nil_append,
    List.filterMap_cons_some h2]
  rfl

theorem firstMatch_cases {μ ρ : Type} (tp : μ → Option ρ) (ms : List μ) (d : ρ) :
    (∃ m ∈ ms, tp m = some (firstMatch tp ms d)) ∨
      (firstMatch tp ms d = d ∧ ∀ m ∈ ms, tp m = none) := by
  induction ms with
  | nil => exact Or.inr ⟨rfl, by intro m hm; cases hm⟩
  | cons m ms ih =>
    cases h : tp m with
    | some r =>
      left
      exact ⟨m, List.mem_cons_self m ms, by rw [firstMatch_cons_some tp m ms d r h, h]⟩
    | none =>
      rw [firstMatch_cons_none tp m ms d h]
      cases ih with
      | inl hl =>
        obtain ⟨m', hm', hr⟩ := hl
        exact Or.inl ⟨m', List.mem_cons_of_mem m hm', hr⟩
      | inr hr =>
        refine Or.inr ⟨hr.1, ?_⟩
        intro m' hm'
        cases List.mem_cons.mp hm' with
        | inl he => rw [he]; exact h
        | inr ht => exact hr.2 m' ht

/- ------------------------------------------------------------------ -/
/- Helper lemmas on the device override invariant.                     -/
/- ------------------------------------------------------------------ -/

/-- Every field of a Device is either absent or a non-empty string. -/
def DeviceOk (d : Device) : Prop :=
  d.family ≠ some "" ∧ d.brand ≠ some "" ∧ d.model ≠ some ""

theorem setTarget_ok (d : Device) (t : OverrideTarget) (v : Option String)
    (h : DeviceOk d) (hv : v ≠ some "") : DeviceOk (setTarget d t v) := by
  cases t with
  | family => exact ⟨hv, h.2.1, h.2.2⟩
  | brand => exact ⟨h.1, hv, h.2.2⟩
  | model => exact ⟨h.1, h.2.1, hv⟩

theorem override_ok (text : String) (d : Device) (o : DeviceOverride)
    (h : DeviceOk d) : DeviceOk (DeviceOverride.apply text d o) := by
  unfold DeviceOverride.apply
  cases hrun : o.regex.run (if o.useOriginal then text else (getTarget d o.target).getD "") with
  | error e => exact h
  | ok oc =>
    cases oc with
    | none => exact h
    | some caps => exact setTarget_ok d o.target _ h (none_if_empty_ne_empty _)

theorem foldl_override_ok (text : String) (rules : List DeviceOverride) :
    ∀ (d : Device), DeviceOk d → DeviceOk (rules.foldl (DeviceOverride.apply text) d) := by
  induction rules with
  | nil => intro d h; exact h
  | cons o rules ih =>
    intro d h
    rw [List.foldl_cons]
    exact ih _ (override_ok text d o h)

theorem device_try_parse_ok (m : DeviceMatcher) (text : String) (d : Device)
    (h : DeviceMatcher.try_parse m text = some d) : DeviceOk d := by
  unfold DeviceMatcher.try_parse at h
  cases hrun : m.regex.run text with
  | error e => rw [hrun] at h; cases h
  | ok oc =>
    cases oc with
    | none => rw [hrun] at h; cases h
    | some caps =>
      rw [hrun] at h
      have hd := Option.some.inj h
      rw [← hd]
      exact foldl_override_ok text m.overrides _
        ⟨fieldVal_ne_empty _ _ _, fieldVal_ne_empty _ _ _, fieldVal_ne_empty _ _ _⟩

/- ------------------------------------------------------------------ -/
/- Helper lemmas on construction.                                      -/
/- ------------------------------------------------------------------ -/

theorem wrapCompile_ok {ε μ σ : Type} (tf : ε → Except σ μ) (w : σ → Error)
    (e : ε) (m : μ) : wrapCompile tf w e = Except.ok m ↔ tf e = Except.ok m := by
  unfold wrapCompile
  cases h : tf e with
  | ok m2 => simp
  | error er => simp

theorem seq_ok_all {ε μ : Type} (g : ε → Except Error μ) :
    ∀ (rs : List ε) (ms : List μ), compileFamilySeq g rs = Except.ok ms →
      ∀ e ∈ rs, ∃ m, g e = Except.ok m := by
  intro rs
  induction rs with
  | nil => intro ms _ e he; cases he
  | cons a l ih =>
    intro ms hok e he
    unfold compileFamilySeq at hok
    cases hga : g a with
    | error er => rw [hga] at hok; cases hok
    | ok m =>
      rw [hga] at hok
      cases hseq : compileFamilySeq g l with
      | error er => rw [hseq] at hok; cases hok
      | ok ms2 =>
        cases List.mem_cons.mp he with
        | inl hh => rw [hh]; exact ⟨m, hga⟩
        | inr ht => exact ih ms2 hseq e ht

theorem seq_ok_get {ε μ : Type} (g : ε → Except Error μ) :
    ∀ (rs : List ε) (ms : List μ), compileFamilySeq g rs = Except.ok ms →
      ms.length = rs.length ∧
        ∀ (i : Nat) (hi : i < rs.length) (hm : i < ms.length),
          g (rs.get ⟨i, hi⟩) = Except.ok (ms.get ⟨i, hm⟩) := by
  intro rs
  induction rs with
  | nil =>
    intro ms hok
    unfold compileFamilySeq at hok
    cases hok
    exact ⟨rfl, by intro i hi _; cases hi⟩
  | cons a l ih =>
    intro ms hok
    unfold compileFamilySeq at hok
    cases hga : g a with
    | error er => rw [hga] at hok; cases hok
    | ok m =>
      rw [hga] at hok
      cases hseq : compileFamilySeq g l with
      | error er => rw [hseq] at hok; cases hok
      | ok ms2 =>
        rw [hseq] at hok
        cases hok
        obtain ⟨hlen, hget⟩ := ih ms2 hseq
        refine ⟨by simp [hlen], ?_⟩
        intro i hi hm
        cases i with
        | zero => exact hga
        | succ n =>
          exact hget n (by simp at hi; omega) (by simp at hm; omega)

theorem seq_all_ok {ε μ : Type} (g : ε → Except Error μ) :
    ∀ (rs : List ε), (∀ e ∈ rs, ∃ m, g e = Except.ok m) →
      ∃ ms, compileFamilySeq g rs = Except.ok ms := by
  intro rs
  induction rs with
  | nil => intro _; exact ⟨[], rfl⟩
  | cons a l ih =>
    intro h
    obtain ⟨m, hm⟩ := h a (List.mem_cons_self a l)
    obtain ⟨ms, hms⟩ := ih (fun e he => h e (List.mem_cons_of_mem a he))
    refine ⟨m :: ms, ?_⟩
    unfold compileFamilySeq
    rw [hm, hms]

theorem seq_err_wrap {ε μ σ : Type} (tf : ε → Except σ μ) (w : σ → Error) :
    ∀ (rs : List ε), (∃ e ∈ rs, ∃ er, tf e = Except.error er) →
      ∃ er2, compileFamilySeq (wrapCompile tf w) rs = Except.error (w er2) := by
  intro rs
  induction rs with
  | nil => rintro ⟨e, he, _⟩; cases he
  | cons a l ih =>
    rintro ⟨e, he, er, her⟩
    cases hta : tf a with
    | error era =>
      refine ⟨era, ?_⟩
      unfold compileFamilySeq
      rw [show wrapCompile tf w a = Except.error (w era) from by unfold wrapCompile; rw [hta]]
    | ok m =>
      have hel : e ∈ l := by
        cases List.mem_cons.mp he with
        | inl hh => rw [hh, hta] at her; cases her
        | inr ht => exact ht
      obtain ⟨er2, h2⟩ := ih ⟨e, hel, er, her⟩
      refine ⟨er2, ?_⟩
      unfold compileFamilySeq
      rw [show wrapCompile tf w a = Except.ok m from by unfold wrapCompile; rw [hta], h2]

theorem tryFoldChunkAux_eq {ε μ : Type} (compile : ε → Except Error μ) :
    ∀ (es : List ε) (v : List μ),
      tryFoldChunkAux compile v es =
        match compileFamilySeq compile es with
        | Except.error er => Except.error er
        | Except.ok ms => Except.ok (v ++ ms) := by
  intro es
  induction es with
  | nil => intro v; simp [tryFoldChunkAux, compileFamilySeq]
  | cons a l ih =>
    intro v
    unfold tryFoldChunkAux compileFamilySeq
    cases hca : compile a with
    | error er => rfl
    | ok m =>
      show tryFoldChunkAux compile (v ++ [m]) l = _
      rw [ih (v ++ [m])]
      show _ = (match (match compileFamilySeq compile l with
        | Except.error er => Except.error er
        | Except.ok ms => Except.ok (m :: ms)) with
        | Except.error er => Except.error er
        | Except.ok ms => Except.ok (v ++ ms))
      cases hl : compileFamilySeq compile l with
      | error er => rfl
      | ok ms => simp

theorem seq_cons {ε μ : Type} (g : ε → Except Error μ) (a : ε) (l : List ε) :
    compileFamilySeq g (a :: l) =
      match g a with
      | Except.error er => Except.error er
      | Except.ok m =>
        match compileFamilySeq g l with
        | Except.error er => Except.error er
        | Except.ok ms => Except.ok (m :: ms) := rfl

theorem seq_append {ε μ : Type} (g : ε → Except Error μ) :
    ∀ (xs ys : List ε),
      compileFamilySeq g (xs ++ ys) =
        match compileFamilySeq g xs with
        | Except.error er => Except.error er
        | Except.ok v1 =>
          match compileFamilySeq g ys with
          | Except.error er => Except.error er
          | Except.ok v2 => Except.ok (v1 ++ v2) := by
  intro xs ys
  induction xs with
  | nil =>
    rw [List.nil_append]
    show compileFamilySeq g ys = _
    cases hy : compileFamilySeq g ys with
    | error er => rfl
    | ok v2 => simp [compileFamilySeq]
  | cons a l ih =>
    rw [List.cons_append, seq_cons g a (l ++ ys), seq_cons g a l, ih]
    cases hca : g a with
    | error er => rfl
    | ok m =>
      cases hl : compileFamilySeq g l with
      | error er => rfl
      | ok v1 =>
        cases hy : compileFamilySeq g ys with
        | error er => rfl
        | ok v2 => simp

theorem compileM_eq_seq {ε μ : Type} (compile : ε → Except Error μ) :
    ∀ (t : ChunkTree ε),
      ChunkTree.compileM compile t = compileFamilySeq compile t.flatten := by
  intro t
  induction t with
  | leaf c =>
    show tryFoldChunk compile c = _
    unfold tryFoldChunk
    rw [tryFoldChunkAux_eq]
    show _ = compileFamilySeq compile c
    cases hc : compileFamilySeq compile c with
    | error er => rfl
    | ok ms => simp
  | node l r ihl ihr =>
    show (match ChunkTree.compileM compile l with
      | Except.error er => Except.error er
      | Except.ok v1 =>
        match ChunkTree.compileM compile r with
        | Except.error er => Except.error er
        | Except.ok v2 => Except.ok (v1 ++ v2)) = _
    rw [ihl, ihr]
    show _ = compileFamilySeq compile (ChunkTree.flatten l ++ ChunkTree.flatten r)
    rw [seq_append]

theorem firstMatch_all_none {μ ρ : Type} (tp : μ → Option ρ) (ms : List μ) (d : ρ)
    (h : ∀ m ∈ ms, tp m = none) : firstMatch tp ms d = d := by
  cases firstMatch_cases tp ms d with
  | inl hl =>
    obtain ⟨m, hm, hr⟩ := hl
    rw [h m hm] at hr
    cases hr
  | inr hr => exact hr.1

/- ------------------------------------------------------------------ -/
/- Concrete sample values used by the witnesses.                       -/
/- ------------------------------------------------------------------ -/

/-- A compiled regex that matches nothing. -/
def noRegex : Regex := ⟨fun _ => Except.ok none⟩

/-- A compiled regex whose evaluation always reports an engine error. -/
def errRegex : Regex := ⟨fun _ => Except.error "backtrack limit exceeded"⟩

/-- A compiled regex that matches everything with a fixed capture set. -/
def okRegex (caps : List (Option String)) : Regex := ⟨fun _ => Except.ok (some caps)⟩

/-- A device matcher that never matches. -/
def dmFail : DeviceMatcher := ⟨noRegex, none, none, none, []⟩

/-- A device matcher that always matches with fixed captures. -/
def dmOk : DeviceMatcher :=
  ⟨okRegex [some "iPhone", some "iPhone"], some "$1", some "Apple", none, []⟩

/-- An OS matcher that never matches. -/
def omFail : OSMatcher := ⟨noRegex, none, none, none, none, none⟩

/-- An OS matcher that always matches with fixed captures. -/
def omOk : OSMatcher :=
  ⟨okRegex [some "Windows NT 10.0", some "10", some "0"], some "Windows", some "$1",
   none, none, none⟩

/-- A user-agent matcher that never matches. -/
def umFail : UAMatcher := ⟨noRegex, none, none, none, none⟩

/-- A user-agent matcher that always matches with fixed captures. -/
def umOk : UAMatcher :=
  ⟨okRegex [some "Chrome/91.0.4472", some "Chrome", some "91", some "0", some "4472"],
   none, none, none, none⟩

/- ------------------------------------------------------------------ -/
/- The claims.                                                         -/
/- ------------------------------------------------------------------ -/

/-- C1: first-match-wins with short-circuit, for each of the three families:
whenever every matcher of a prefix fails on the input and the next matcher
succeeds, the family evaluator returns that matcher's extraction — whatever the
matchers placed after it would do (in particular when a later matcher would
also succeed, the earlier one in configured order wins, regardless of
specificity; the result does not depend on the later matchers at all). -/
theorem C1_first_match_wins :
    (∀ (dms1 : List DeviceMatcher) (dm : DeviceMatcher) (dms2 : List DeviceMatcher)
        (oms : List OSMatcher) (ums : List UAMatcher) (ua : String) (d : Device),
      (∀ m' ∈ dms1, DeviceMatcher.try_parse m' ua = none) →
      DeviceMatcher.try_parse dm ua = some d →
      UserAgentParser.parse_device ⟨dms1 ++ dm :: dms2, oms, ums⟩ ua = d) ∧
    (∀ (oms1 : List OSMatcher) (om : OSMatcher) (oms2 : List OSMatcher)
        (dms : List DeviceMatcher) (ums : List UAMatcher) (ua : String) (o : OS),
      (∀ m' ∈ oms1, OSMatcher.try_parse m' ua = none) →
      OSMatcher.try_parse om ua = some o →
      UserAgentParser.parse_os ⟨dms, oms1 ++ om :: oms2, ums⟩ ua = o) ∧
    (∀ (ums1 : List UAMatcher) (um : UAMatcher) (ums2 : List UAMatcher)
        (dms : List DeviceMatcher) (oms : List OSMatcher) (ua : String) (u : UserAgent),
      (∀ m' ∈ ums1, UAMatcher.try_parse m' ua = none) →
      UAMatcher.try_parse um ua = some u →
      UserAgentParser.parse_user_agent ⟨dms, oms, ums1 ++ um :: ums2⟩ ua = u) := by
  refine ⟨?_, ?_, ?_⟩
  · intro dms1 dm dms2 oms ums ua d h1 h2
    exact firstMatch_first _ dms1 dm dms2 Device.default d h1 h2
  · intro oms1 om oms2 dms ums ua o h1 h2
    exact firstMatch_first _ oms1 om oms2 OS.default o h1 h2
  · intro ums1 um ums2 dms oms ua u h1 h2
    exact firstMatch_first _ ums1 um ums2 UserAgent.default u h1 h2

/-- Witness for C1 at concrete inputs: a failing matcher first, a succeeding
one second, and another matcher after it, in each family. -/
theorem C1_first_match_wins_witness :
    UserAgentParser.parse_device ⟨[dmFail] ++ dmOk :: [dmFail], [], []⟩ "x"
      = ⟨some "iPhone", some "Apple", none⟩ ∧
    UserAgentParser.parse_os ⟨[], [omFail] ++ omOk :: [omFail], []⟩ "x"
      = ⟨some "Windows", some "10", none, none, none⟩ ∧
    UserAgentParser.parse_user_agent ⟨[], [], [umFail] ++ umOk :: [umFail]⟩ "x"
      = ⟨some "Chrome", some "91", some "0", some "4472"⟩ := by
  refine ⟨?_, ?_, ?_⟩
  · exact C1_first_match_wins.1 [dmFail] dmOk [dmFail] [] [] "x" _
      (by intro m' hm'; rw [List.mem_singleton] at hm'; subst hm'; rfl) rfl
  · exact C1_first_match_wins.2.1 [omFail] omOk [omFail] [] [] "x" _
      (by intro m' hm'; rw [List.mem_singleton] at hm'; subst hm'; rfl) rfl
  · exact C1_first_match_wins.2.2 [umFail] umOk [umFail] [] [] "x" _
      (by intro m' hm'; rw [List.mem_singleton] at hm'; subst hm'; rfl) rfl

/-- C2: match-time totality.  `parse` assembles the three family results; each
family evaluation always yields a result value — either the extraction of some
matcher in its list or the family default — and an individual matcher turns a
regex-engine evaluation error into a plain no-match instead of propagating it.
In the embedding all four operations are total functions into plain result
types (not `Except`), so no input makes them fail. -/
theorem C2_match_total (p : UserAgentParser) (ua : String) :
    (UserAgentParser.parse p ua =
      ⟨p.parse_device ua, p.parse_os ua, p.parse_user_agent ua⟩) ∧
    ((∃ m ∈ p.device_matchers,
        DeviceMatcher.try_parse m ua = some (p.parse_device ua)) ∨
      (p.parse_device ua = Device.default ∧
        ∀ m ∈ p.device_matchers, DeviceMatcher.try_parse m ua = none)) ∧
    ((∃ m ∈ p.os_matchers, OSMatcher.try_parse m ua = some (p.parse_os ua)) ∨
      (p.parse_os ua = OS.default ∧
        ∀ m ∈ p.os_matchers, OSMatcher.try_parse m ua = none)) ∧
    ((∃ m ∈ p.user_agent_matchers,
        UAMatcher.try_parse m ua = some (p.parse_user_agent ua)) ∨
      (p.parse_user_agent ua = UserAgent.default ∧
        ∀ m ∈ p.user_agent_matchers, UAMatcher.try_parse m ua = none)) ∧
    (∀ (m : DeviceMatcher) (e : String), m.regex.run ua = Except.error e →
      DeviceMatcher.try_parse m ua = none) ∧
    (∀ (m : OSMatcher) (e : String), m.regex.run ua = Except.error e →
      OSMatcher.try_parse m ua = none) ∧
    (∀ (m : UAMatcher) (e : String), m.regex.run ua = Except.error e →
      UAMatcher.try_parse m ua = none) := by
  refine ⟨rfl, ?_, ?_, ?_, ?_, ?_, ?_⟩
  · exact firstMatch_cases _ p.device_matchers Device.default
  · exact firstMatch_cases _ p.os_matchers OS.default
  · exact firstMatch_cases _ p.user_agent_matchers UserAgent.default
  · intro m e h
    unfold DeviceMatcher.try_parse
    rw [h]
  · intro m e h
    unfold OSMatcher.try_parse
    rw [h]
  · intro m e h
    unfold UAMatcher.try_parse
    rw [h]

/-- Witness for C2 at concrete inputs, including an erroring regex engine and
the empty input string. -/
theorem C2_match_total_witness :
    UserAgentParser.parse ⟨[dmFail], [omFail], [umFail]⟩ "" =
      ⟨UserAgentParser.parse_device ⟨[dmFail], [omFail], [umFail]⟩ "",
       UserAgentParser.parse_os ⟨[dmFail], [omFail], [umFail]⟩ "",
       UserAgentParser.parse_user_agent ⟨[dmFail], [omFail], [umFail]⟩ ""⟩ ∧
    DeviceMatcher.try_parse ⟨errRegex, none, none, none, []⟩ "" = none := by
  constructor
  · exact (C2_match_total ⟨[dmFail], [omFail], [umFail]⟩ "").1
  · exact (C2_match_total ⟨[dmFail], [omFail], [umFail]⟩ "").2.2.2.2.1
      ⟨errRegex, none, none, none, []⟩ "backtrack limit exceeded" rfl

/-- C7: for every family, an empty matcher list, and more generally an input on
which every matcher of the list fails, produces the family's default result as
a normal return value (the evaluators return plain result structs, not
errors), and every optional field of the three default values is absent. -/
theorem C7_no_match_default :
    (∀ (oms : List OSMatcher) (ums : List UAMatcher) (ua : String),
      UserAgentParser.parse_device ⟨[], oms, ums⟩ ua = Device.default) ∧
    (∀ (dms : List DeviceMatcher) (oms : List OSMatcher) (ums : List UAMatcher)
        (ua : String), (∀ m ∈ dms, DeviceMatcher.try_parse m ua = none) →
      UserAgentParser.parse_device ⟨dms, oms, ums⟩ ua = Device.default) ∧
    (∀ (dms : List DeviceMatcher) (ums : List UAMatcher) (ua : String),
      UserAgentParser.parse_os ⟨dms, [], ums⟩ ua = OS.default) ∧
    (∀ (dms : List DeviceMatcher) (oms : List OSMatcher) (ums : List UAMatcher)
        (ua : String), (∀ m ∈ oms, OSMatcher.try_parse m ua = none) →
      UserAgentParser.parse_os ⟨dms, oms, ums⟩ ua = OS.default) ∧
    (∀ (dms : List DeviceMatcher) (oms : List OSMatcher) (ua : String),
      UserAgentParser.parse_user_agent ⟨dms, oms, []⟩ ua = UserAgent.default) ∧
    (∀ (dms : List DeviceMatcher) (oms : List OSMatcher) (ums : List UAMatcher)
        (ua : String), (∀ m ∈ ums, UAMatcher.try_parse m ua = none) →
      UserAgentParser.parse_user_agent ⟨dms, oms, ums⟩ ua = UserAgent.default) ∧
    (Device.default.family = none ∧ Device.default.brand = none ∧
      Device.default.model = none) ∧
    (OS.default.family = none ∧ OS.default.major = none ∧ OS.default.minor = none ∧
      OS.default.patch = none ∧ OS.default.patch_minor = none) ∧
    (UserAgent.default.family = none ∧ UserAgent.default.major = none ∧
      UserAgent.default.minor = none ∧ UserAgent.default.patch = none) := by
  refine ⟨fun _ _ _ => rfl, ?_, fun _ _ _ => rfl, ?_, fun _ _ _ => rfl, ?_,
    ⟨rfl, rfl, rfl⟩, ⟨rfl, rfl, rfl, rfl, rfl⟩, ⟨rfl, rfl, rfl, rfl⟩⟩
  · intro dms oms ums ua h
    exact firstMatch_all_none _ dms Device.default h
  · intro dms oms ums ua h
    exact firstMatch_all_none _ oms OS.default h
  · intro dms oms ums ua h
    exact firstMatch_all_none _ ums UserAgent.default h

/-- Witness for C7 at concrete inputs: a single never-matching matcher per
family. -/
theorem C7_no_match_default_witness :
    UserAgentParser.parse_device ⟨[dmFail], [], []⟩ "zzz" = Device.default ∧
    UserAgentParser.parse_os ⟨[], [omFail], []⟩ "zzz" = OS.default ∧
    UserAgentParser.parse_user_agent ⟨[], [], [umFail]⟩ "zzz" = UserAgent.default := by
  refine ⟨?_, ?_, ?_⟩
  · exact C7_no_match_default.2.1 [dmFail] [] [] "zzz"
      (by intro m hm; rw [List.mem_singleton] at hm; subst hm; rfl)
  · exact C7_no_match_default.2.2.2.1 [] [omFail] [] "zzz"
      (by intro m hm; rw [List.mem_singleton] at hm; subst hm; rfl)
  · exact C7_no_match_default.2.2.2.2.2.1 [] [] [umFail] "zzz"
      (by intro m hm; rw [List.mem_singleton] at hm; subst hm; rfl)

/-- C9: `parse` returns exactly the Client assembled from `parse_device`,
`parse_os` and `parse_user_agent` on the same input, and each of the three
narrower operations depends only on its own family's matcher list: replacing
the other two lists arbitrarily leaves its result unchanged. -/
theorem C9_parse_composition :
    (∀ (p : UserAgentParser) (ua : String),
      UserAgentParser.parse p ua =
        ⟨UserAgentParser.parse_device p ua, UserAgentParser.parse_os p ua,
         UserAgentParser.parse_user_agent p ua⟩) ∧
    (∀ (dms : List DeviceMatcher) (oms oms' : List OSMatcher)
        (ums ums' : List UAMatcher) (ua : String),
      UserAgentParser.parse_device ⟨dms, oms, ums⟩ ua
        = UserAgentParser.parse_device ⟨dms, oms', ums'⟩ ua) ∧
    (∀ (dms dms' : List DeviceMatcher) (oms : List OSMatcher)
        (ums ums' : List UAMatcher) (ua : String),
      UserAgentParser.parse_os ⟨dms, oms, ums⟩ ua
        = UserAgentParser.parse_os ⟨dms', oms, ums'⟩ ua) ∧
    (∀ (dms dms' : List DeviceMatcher) (oms oms' : List OSMatcher)
        (ums : List UAMatcher) (ua : String),
      UserAgentParser.parse_user_agent ⟨dms, oms, ums⟩ ua
        = UserAgentParser.parse_user_agent ⟨dms', oms', ums⟩ ua) :=
  ⟨fun _ _ => rfl, fun _ _ _ _ _ _ => rfl, fun _ _ _ _ _ _ => rfl,
   fun _ _ _ _ _ _ => rfl⟩

theorem replCharsAux_nil_subject (pat rep : List Char) (fuel : Nat) :
    replCharsAux pat rep fuel [] = [] := by
  cases fuel <;> rfl

theorem replChars_self_empty (p : List Char) (hne : p ≠ []) : replChars p [] p = [] := by
  cases p with
  | nil => exact absurd rfl hne
  | cons c rest =>
    show replCharsAux (c :: rest) [] (rest.length + 1) (c :: rest) = []
    have hcond : (c :: rest) ≠ [] ∧ (c :: rest).isPrefixOf (c :: rest) = true :=
      ⟨by simp, List.isPrefixOf_iff_prefix.mpr (List.prefix_refl _)⟩
    simp only [replCharsAux, if_pos hcond]
    rw [List.nil_append,
      show rest.drop ((c :: rest).length - 1) = [] from by simp]
    exact replCharsAux_nil_subject _ _ _

theorem strReplace_self_empty (s : String) (hne : s.data ≠ []) :
    strReplace s s "" = "" := by
  show String.mk (replChars s.data [] s.data) = ""
  rw [replChars_self_empty s.data hne]

theorem digit_not_infix (i j : Nat) (h1 : 1 ≤ i) (h9 : i ≤ 9) (hj1 : 1 ≤ j)
    (hj9 : j ≤ 9) (hne : j ≠ i) :
    ¬ (('$' :: (toString j).data) <:+: ("$" ++ toString i).data) := by
  interval_cases i <;> interval_cases j <;>
    first
      | exact absurd rfl hne
      | decide

/-- Counterexample to C4 as stated: the template "US$ " contains no numbered
placeholder, yet it is not used verbatim — because it contains a `$`, the
substitution branch runs and trims the trailing space. -/
theorem C4_counterexample :
    replace "US$ " [some "m"] = "US$" ∧ ("US$" : String) ≠ "US$ " :=
  ⟨by decide, by decide⟩

/-- C4 (amended): a matcher template "$1 $2" with "Chrome" in group 1 and "91"
in group 2 substitutes to the trimmed "Chrome 91"; a template containing no `$`
character at all is used verbatim as a literal constant regardless of capture
content; and a template that contains a `$` but no substitutable placeholder
`$i` (`1 ≤ i ≤ captures.len()`) is left unsubstituted but whitespace-trimmed. -/
theorem C4_template_substitution :
    (replace "$1 $2" [some "x Chrome 91", some "Chrome", some "91"] = "Chrome 91") ∧
    (∀ (t : String) (caps : List (Option String)),
      containsChar t '$' = false → replace t caps = t) ∧
    (∀ (t : String) (caps : List (Option String)),
      containsChar t '$' = true → 0 < caps.length →
      (∀ i ∈ List.range' 1 caps.length, ¬ (('$' :: (toString i).data) <:+: t.data)) →
      replace t caps = strTrim t) := by
  refine ⟨by decide, ?_, ?_⟩
  · intro t caps h
    unfold replace
    rw [if_neg]
    rintro ⟨h1, _⟩
    rw [h] at h1
    cases h1
  · intro t caps h hl hno
    unfold replace
    rw [if_pos ⟨h, hl⟩]
    unfold subFold
    rw [foldl_subStep_no_op caps _ t hno]

/-- Witness for C4's amended parts at concrete inputs: a `$`-free template is
returned verbatim (untrimmed), a `$`-containing placeholder-free template is
trimmed only. -/
theorem C4_template_substitution_witness :
    replace " lit " [some "m"] = " lit " ∧ replace "$x" [some "m"] = strTrim "$x" := by
  constructor
  · exact C4_template_substitution.2.1 " lit " [some "m"] rfl
  · exact C4_template_substitution.2.2 "$x" [some "m"] rfl (by decide) (by decide)

/-- Counterexample to C5 as stated: the placeholder "$4" against a 2-group
capture set (`captures.len() = 3`, counting the whole-match group 0) is out of
the substitution range `1 ..= captures.len()`, so it is left verbatim in the
output rather than resolved to the empty string. -/
theorem C5_counterexample :
    replace "$4" [some "w", some "a", some "b"] = "$4" ∧ ("$4" : String) ≠ "" :=
  ⟨by decide, by decide⟩

/-- C5 (amended): substitution is a total function, and a single-placeholder
template `$i` (single digit, `1 ≤ i ≤ captures.len()`, where `len` counts the
whole-match group 0) whose group is missing, non-participating, or empty
substitutes to the empty string; a placeholder with index greater than
`captures.len()` is instead left verbatim in the output (see the
counterexample). -/
theorem C5_missing_group_empty (i : Nat) (caps : List (Option String))
    (h1 : 1 ≤ i) (h9 : i ≤ 9) (hlen : i ≤ caps.length) (hc : capGet caps i = "") :
    replace ("$" ++ toString i) caps = "" := by
  have hlen0 : 0 < caps.length := by omega
  unfold replace
  rw [if_pos ⟨containsChar_dollar_append _, hlen0⟩]
  unfold subFold
  have hrsplit : List.range' 1 caps.length =
      List.range' 1 i ++ List.range' (1 + i) (caps.length - i) := by
    rw [List.range'_append_1]
    congr 1
    omega
  rw [hrsplit, List.foldl_append]
  have hkill : List.foldl (subStep caps) ("$" ++ toString i) (List.range' 1 i) = "" := by
    have hsplit : List.range' 1 i = List.range' 1 (i - 1) ++ [i] := by
      rw [show [i] = List.range' (1 + (i - 1)) 1 from by rw [List.range'_one]; congr 1; omega,
        List.range'_append_1]
      congr 1
      omega
    have hpre : List.foldl (subStep caps) ("$" ++ toString i) (List.range' 1 (i - 1)) =
        "$" ++ toString i :=
      foldl_subStep_no_op caps _ _ (fun j hj => by
        rw [List.mem_range'_1] at hj
        exact digit_not_infix i j h1 h9 hj.1 (by omega) (by omega))
    rw [hsplit, List.foldl_append, hpre]
    show subStep caps ("$" ++ toString i) i = ""
    unfold subStep
    rw [hc]
    exact strReplace_self_empty ("$" ++ toString i)
      (by rw [dollar_head_data]; simp)
  rw [hkill, foldl_subStep_no_dollar caps _ "" (by intro hmem; cases hmem)]
  rfl

/-- Witness for C5's amended claim at a concrete input: "$3" with a 2-group
capture set substitutes to the empty string. -/
theorem C5_missing_group_empty_witness :
    replace ("$" ++ toString 3) [some "w", some "a", some "b"] = "" :=
  C5_missing_group_empty 3 [some "w", some "a", some "b"]
    (by decide) (by decide) (by decide) rfl

/-- The capture set used by the C10 theorem: 12 explicit groups (13 entries
with the whole-match group 0), group 1 carrying `g1` and group 12 carrying
`g12`. -/
def mkCaps12 (g1 g12 : String) : List (Option String) :=
  [some "w", some g1, some "x", some "x", some "x", some "x", some "x", some "x",
   some "x", some "x", some "x", some "x", some g12]

/-- C10: the substitution passes run in increasing index order by plain
substring replacement, so for the template "$12" the `$1` pass rewrites the
`$1` prefix of "$12" first: the result is group 1's text followed by the
literal character '2' (then trimmed), and group 12's text never appears —
"$12" is never substituted as a whole unit when group 1 exists. -/
theorem C10_multidigit_lower_pass (g1 g12 : String) (h : ('$' : Char) ∉ g1.data) :
    replace "$12" (mkCaps12 g1 g12) = strTrim (g1 ++ "2") := by
  unfold replace
  have hlen12 : 0 < (mkCaps12 g1 g12).length := by simp [mkCaps12]
  rw [if_pos ⟨rfl, hlen12⟩]
  unfold subFold
  have hnd : ('$' : Char) ∉ (String.mk (g1.data ++ ['2'])).data := by
    show ('$' : Char) ∉ g1.data ++ ['2']
    intro hmem
    cases List.mem_append.mp hmem with
    | inl hg => exact h hg
    | inr h2 =>
      cases h2 with
      | tail _ hh => cases hh
  rw [show List.range' 1 (mkCaps12 g1 g12).length = 1 :: List.range' 2 12 from rfl,
    List.foldl_cons,
    show subStep (mkCaps12 g1 g12) "$12" 1 = String.mk (g1.data ++ ['2']) from rfl,
    foldl_subStep_no_dollar _ _ _ hnd]
  rfl

/-- Witness for C10 at a concrete input: with "A" in group 1 and "XII" in group
12, the template "$12" substitutes to "A2", not to "XII". -/
theorem C10_multidigit_lower_pass_witness :
    replace "$12" (mkCaps12 "A" "XII") = "A2" := by
  rw [C10_multidigit_lower_pass "A" "XII" (by decide)]
  decide

/-- A user-agent matcher whose family template is the whitespace-only literal
" ", used by the C6 counterexample. -/
def umWs : UAMatcher := ⟨okRegex [some "x"], some " ", none, none, none⟩

/-- Counterexample to C6 as stated: a whitespace-only template without a `$`
skips the substitute-and-trim branch entirely, so the extracted family field
comes back present and whitespace-only — neither trimmed nor reported
absent. -/
theorem C6_counterexample :
    UAMatcher.try_parse umWs "x" = some ⟨some " ", none, none, none⟩ ∧
    isRustWhitespace ' ' = true :=
  ⟨rfl, by decide⟩

/-- C6 (amended): every optional field of an extracted Device, OS or UserAgent
is either absent or a non-empty string — never a present empty string.  A
substitution through a template that contains a `$` (with a nonempty capture
set) is whitespace-trimmed, and when its raw fold result is whitespace-only the
field is reported absent; a template without a `$` is used verbatim, so a
whitespace-only literal template yields a present (non-empty) whitespace field
(see the counterexample). -/
theorem C6_fields_nonempty :
    (∀ (m : DeviceMatcher) (text : String) (d : Device),
      DeviceMatcher.try_parse m text = some d →
      d.family ≠ some "" ∧ d.brand ≠ some "" ∧ d.model ≠ some "") ∧
    (∀ (m : OSMatcher) (text : String) (o : OS),
      OSMatcher.try_parse m text = some o →
      o.family ≠ some "" ∧ o.major ≠ some "" ∧ o.minor ≠ some "" ∧
        o.patch ≠ some "" ∧ o.patch_minor ≠ some "") ∧
    (∀ (m : UAMatcher) (text : String) (u : UserAgent),
      UAMatcher.try_parse m text = some u →
      u.family ≠ some "" ∧ u.major ≠ some "" ∧ u.minor ≠ some "" ∧
        u.patch ≠ some "") ∧
    (∀ (t : String) (caps : List (Option String)),
      containsChar t '$' = true → 0 < caps.length →
      strTrim (replace t caps) = replace t caps) ∧
    (∀ (t : String) (caps : List (Option String)),
      containsChar t '$' = true → 0 < caps.length →
      (∀ c ∈ (subFold t caps).data, isRustWhitespace c = true) →
      none_if_empty (replace t caps) = none) := by
  refine ⟨?_, ?_, ?_, ?_, ?_⟩
  · intro m text d h
    exact device_try_parse_ok m text d h
  · intro m text o h
    unfold OSMatcher.try_parse at h
    cases hrun : m.regex.run text with
    | error e => rw [hrun] at h; cases h
    | ok oc =>
      cases oc with
      | none => rw [hrun] at h; cases h
      | some caps =>
        rw [hrun] at h
        rw [← Option.some.inj h]
        exact ⟨fieldVal_ne_empty _ _ _, fieldVal_ne_empty _ _ _, fieldVal_ne_empty _ _ _,
          fieldVal_ne_empty _ _ _, fieldVal_ne_empty _ _ _⟩
  · intro m text u h
    unfold UAMatcher.try_parse at h
    cases hrun : m.regex.run text with
    | error e => rw [hrun] at h; cases h
    | ok oc =>
      cases oc with
      | none => rw [hrun] at h; cases h
      | some caps =>
        rw [hrun] at h
        rw [← Option.some.inj h]
        exact ⟨fieldVal_ne_empty _ _ _, fieldVal_ne_empty _ _ _, fieldVal_ne_empty _ _ _,
          fieldVal_ne_empty _ _ _⟩
  · intro t caps h hl
    unfold replace
    rw [if_pos ⟨h, hl⟩]
    exact strTrim_idem _
  · intro t caps h hl hws
    unfold replace
    rw [if_pos ⟨h, hl⟩]
    rw [show strTrim (subFold t caps) = "" from congrArg String.mk (trimChars_all_ws _ hws)]
    rfl

/-- Witness for C6 at concrete inputs: a non-empty extracted field, a trimmed
substitution, and a whitespace-only substitution reported absent. -/
theorem C6_fields_nonempty_witness :
    ((⟨some "Chrome", some "91", some "0", some "4472"⟩ : UserAgent).family ≠ some "") ∧
    strTrim (replace "$1" [some "x", some " a "]) = replace "$1" [some "x", some " a "] ∧
    none_if_empty (replace "$1" [some "w", some "  "]) = none := by
  refine ⟨?_, ?_, ?_⟩
  · exact (C6_fields_nonempty.2.2.1 umOk "x" _ rfl).1
  · exact C6_fields_nonempty.2.2.2.1 "$1" [some "x", some " a "] rfl (by decide)
  · exact C6_fields_nonempty.2.2.2.2 "$1" [some "w", some "  "] rfl (by decide) (by decide)

/-- An engine for which every pattern compiles. -/
def okEngine : RegexEngine := ⟨fun _ => Except.ok noRegex⟩

/-- An engine that rejects exactly the pattern "(". -/
def badEngine : RegexEngine :=
  ⟨fun p => if p = "(" then Except.error "unbalanced" else Except.ok noRegex⟩

/-- Sample raw records. -/
def de1 : DeviceParserEntry := ⟨"a", none, none, none, []⟩

def de2 : DeviceParserEntry := ⟨"b", some "$1", none, none, []⟩

def oe1 : OSParserEntry := ⟨"c", none, none, none, none, none⟩

def ue1 : UserAgentParserEntry := ⟨"d", none, none, none, none⟩

def deBad : DeviceParserEntry := ⟨"(", none, none, none, []⟩

def oeBad : OSParserEntry := ⟨"(", none, none, none, none, none⟩

def ueBad : UserAgentParserEntry := ⟨"(", none, none, none, none⟩

/-- A sample pattern file whose records all compile under `okEngine`. -/
def fileOk : RegexFile := ⟨[de1, de2], [oe1], [ue1]⟩

/-- C3: construction is atomic.  A successfully constructed parser certifies
that every record of every family compiled (so one failing record anywhere
makes construction return an error instead of any partial parser — the
`Except` result type offers no other outcome); a failing device record yields
a `Device`-tagged error, a failing OS record (with devices fine) an `OS`-tagged
error, a failing user-agent record (with devices and OSes fine) a
`UserAgent`-tagged error, each variant carrying the offending pattern; and the
five `Error` variants — I/O, YAML deserialization, and the three per-family
compilation failures — are pairwise distinct. -/
theorem C3_construction_atomic :
    (∀ (eng : RegexEngine) (f : RegexFile) (p : UserAgentParser),
      UserAgentParser.try_from eng f = Except.ok p →
      (∀ e ∈ f.device_parsers, ∃ m, DeviceMatcher.try_from eng e = Except.ok m) ∧
      (∀ e ∈ f.os_parsers, ∃ m, OSMatcher.try_from eng e = Except.ok m) ∧
      (∀ e ∈ f.user_agent_parsers, ∃ m, UAMatcher.try_from eng e = Except.ok m) ∧
      p.device_matchers.length = f.device_parsers.length ∧
      p.os_matchers.length = f.os_parsers.length ∧
      p.user_agent_matchers.length = f.user_agent_parsers.length) ∧
    (∀ (eng : RegexEngine) (f : RegexFile) (e : DeviceParserEntry) (er : DeviceError),
      e ∈ f.device_parsers → DeviceMatcher.try_from eng e = Except.error er →
      ∃ er2, UserAgentParser.try_from eng f = Except.error (Error.Device er2)) ∧
    (∀ (eng : RegexEngine) (f : RegexFile) (e : OSParserEntry) (er : OSError),
      e ∈ f.os_parsers → OSMatcher.try_from eng e = Except.error er →
      (∀ e2 ∈ f.device_parsers, ∃ m, DeviceMatcher.try_from eng e2 = Except.ok m) →
      ∃ er2, UserAgentParser.try_from eng f = Except.error (Error.OS er2)) ∧
    (∀ (eng : RegexEngine) (f : RegexFile) (e : UserAgentParserEntry)
        (er : UserAgentError),
      e ∈ f.user_agent_parsers → UAMatcher.try_from eng e = Except.error er →
      (∀ e2 ∈ f.device_parsers, ∃ m, DeviceMatcher.try_from eng e2 = Except.ok m) →
      (∀ e2 ∈ f.os_parsers, ∃ m, OSMatcher.try_from eng e2 = Except.ok m) →
      ∃ er2, UserAgentParser.try_from eng f = Except.error (Error.UserAgent er2)) ∧
    (∀ (a b : String) (c : DeviceError) (d : OSError) (e : UserAgentError),
      Error.IOErr a ≠ Error.Yaml b ∧ Error.IOErr a ≠ Error.Device c ∧
      Error.IOErr a ≠ Error.OS d ∧ Error.IOErr a ≠ Error.UserAgent e ∧
      Error.Yaml b ≠ Error.Device c ∧ Error.Yaml b ≠ Error.OS d ∧
      Error.Yaml b ≠ Error.UserAgent e ∧ Error.Device c ≠ Error.OS d ∧
      Error.Device c ≠ Error.UserAgent e ∧ Error.OS d ≠ Error.UserAgent e) := by
  refine ⟨?_, ?_, ?_, ?_, ?_⟩
  · intro eng f p h
    unfold UserAgentParser.try_from at h
    cases hd : compileFamilySeq (wrapCompile (DeviceMatcher.try_from eng) Error.Device)
        f.device_parsers with
    | error er => rw [hd] at h; cases h
    | ok dms =>
      rw [hd] at h
      cases ho : compileFamilySeq (wrapCompile (OSMatcher.try_from eng) Error.OS)
          f.os_parsers with
      | error er => rw [ho] at h; cases h
      | ok oms =>
        rw [ho] at h
        cases hu : compileFamilySeq (wrapCompile (UAMatcher.try_from eng) Error.UserAgent)
            f.user_agent_parsers with
        | error er => rw [hu] at h; cases h
        | ok ums =>
          rw [hu] at h
          cases h
          refine ⟨?_, ?_, ?_, (seq_ok_get _ _ _ hd).1, (seq_ok_get _ _ _ ho).1,
            (seq_ok_get _ _ _ hu).1⟩
          · intro e he
            exact (seq_ok_all _ _ _ hd e he).imp (fun m hm => (wrapCompile_ok _ _ _ _).mp hm)
          · intro e he
            exact (seq_ok_all _ _ _ ho e he).imp (fun m hm => (wrapCompile_ok _ _ _ _).mp hm)
          · intro e he
            exact (seq_ok_all _ _ _ hu e he).imp (fun m hm => (wrapCompile_ok _ _ _ _).mp hm)
  · intro eng f e er he her
    obtain ⟨er2, h2⟩ := seq_err_wrap (DeviceMatcher.try_from eng) Error.Device
      f.device_parsers ⟨e, he, er, her⟩
    refine ⟨er2, ?_⟩
    unfold UserAgentParser.try_from
    rw [h2]
  · intro eng f e er he her hall
    obtain ⟨dms, hd⟩ := seq_all_ok _ f.device_parsers
      (fun e2 he2 => (hall e2 he2).imp (fun m hm => (wrapCompile_ok _ _ _ _).mpr hm))
    obtain ⟨er2, h2⟩ := seq_err_wrap (OSMatcher.try_from eng) Error.OS
      f.os_parsers ⟨e, he, er, her⟩
    refine ⟨er2, ?_⟩
    unfold UserAgentParser.try_from
    rw [hd, h2]
  · intro eng f e er he her halld hallo
    obtain ⟨dms, hd⟩ := seq_all_ok _ f.device_parsers
      (fun e2 he2 => (halld e2 he2).imp (fun m hm => (wrapCompile_ok _ _ _ _).mpr hm))
    obtain ⟨oms, ho⟩ := seq_all_ok _ f.os_parsers
      (fun e2 he2 => (hallo e2 he2).imp (fun m hm => (wrapCompile_ok _ _ _ _).mpr hm))
    obtain ⟨er2, h2⟩ := seq_err_wrap (UAMatcher.try_from eng) Error.UserAgent
      f.user_agent_parsers ⟨e, he, er, her⟩
    refine ⟨er2, ?_⟩
    unfold UserAgentParser.try_from
    rw [hd, ho, h2]
  · intro a b c d e
    exact ⟨fun hx => Error.noConfusion hx, fun hx => Error.noConfusion hx,
      fun hx => Error.noConfusion hx, fun hx => Error.noConfusion hx,
      fun hx => Error.noConfusion hx, fun hx => Error.noConfusion hx,
      fun hx => Error.noConfusion hx, fun hx => Error.noConfusion hx,
      fun hx => Error.noConfusion hx, fun hx => Error.noConfusion hx⟩

/-- Witness for C3 at concrete inputs: a bad device record, a bad OS record,
and a bad user-agent record each abort construction with the family-tagged
error, and a fully successful construction certifies all records compiled. -/
theorem C3_construction_atomic_witness :
    (∃ er2, UserAgentParser.try_from badEngine ⟨[de1, deBad], [oe1], [ue1]⟩ =
      Except.error (Error.Device er2)) ∧
    (∃ er2, UserAgentParser.try_from badEngine ⟨[de1], [oeBad], [ue1]⟩ =
      Except.error (Error.OS er2)) ∧
    (∃ er2, UserAgentParser.try_from badEngine ⟨[de1], [oe1], [ueBad]⟩ =
      Except.error (Error.UserAgent er2)) ∧
    (∀ e ∈ fileOk.device_parsers, ∃ m, DeviceMatcher.try_from okEngine e = Except.ok m) := by
  refine ⟨?_, ?_, ?_, ?_⟩
  · exact C3_construction_atomic.2.1 badEngine _ deBad ⟨"(", "unbalanced"⟩ (by simp) rfl
  · exact C3_construction_atomic.2.2.1 badEngine _ oeBad ⟨"(", "unbalanced"⟩ (by simp) rfl
      (by intro e2 he2; rw [List.mem_singleton] at he2; subst he2; exact ⟨_, rfl⟩)
  · exact C3_construction_atomic.2.2.2.1 badEngine _ ueBad ⟨"(", "unbalanced"⟩ (by simp) rfl
      (by intro e2 he2; rw [List.mem_singleton] at he2; subst he2; exact ⟨_, rfl⟩)
      (by intro e2 he2; rw [List.mem_singleton] at he2; subst he2; exact ⟨_, rfl⟩)
  · exact (C3_construction_atomic.1 okEngine fileOk _ rfl).1

/-- C8: for every splitting of each family's record list into contiguous
chunks (any binary fan-out shape), the `try_fold` / `try_reduce` pipeline
computes exactly the sequential in-order compilation of the whole list, and on
an all-successful file the matcher at position `i` of the resulting list is
compiled from the record at position `i`: concatenation across parallel chunks
preserves the original record order exactly. -/
theorem C8_parallel_order_preserved :
    ∀ (eng : RegexEngine) (f : RegexFile)
      (td : ChunkTree DeviceParserEntry) (tos : ChunkTree OSParserEntry)
      (tua : ChunkTree UserAgentParserEntry),
    td.flatten = f.device_parsers → tos.flatten = f.os_parsers →
    tua.flatten = f.user_agent_parsers →
    (∀ e ∈ f.device_parsers, ∃ m, DeviceMatcher.try_from eng e = Except.ok m) →
    (∀ e ∈ f.os_parsers, ∃ m, OSMatcher.try_from eng e = Except.ok m) →
    (∀ e ∈ f.user_agent_parsers, ∃ m, UAMatcher.try_from eng e = Except.ok m) →
    (ChunkTree.compileM (wrapCompile (DeviceMatcher.try_from eng) Error.Device) td =
      compileFamilySeq (wrapCompile (DeviceMatcher.try_from eng) Error.Device)
        f.device_parsers) ∧
    (ChunkTree.compileM (wrapCompile (OSMatcher.try_from eng) Error.OS) tos =
      compileFamilySeq (wrapCompile (OSMatcher.try_from eng) Error.OS) f.os_parsers) ∧
    (ChunkTree.compileM (wrapCompile (UAMatcher.try_from eng) Error.UserAgent) tua =
      compileFamilySeq (wrapCompile (UAMatcher.try_from eng) Error.UserAgent)
        f.user_agent_parsers) ∧
    (∀ dms, compileFamilySeq (wrapCompile (DeviceMatcher.try_from eng) Error.Device)
        f.device_parsers = Except.ok dms →
      dms.length = f.device_parsers.length ∧
      ∀ (i : Nat) (hi : i < f.device_parsers.length) (hm : i < dms.length),
        DeviceMatcher.try_from eng (f.device_parsers.get ⟨i, hi⟩) =
          Except.ok (dms.get ⟨i, hm⟩)) := by
  intro eng f td tos tua hfd hfo hfu _ _ _
  refine ⟨?_, ?_, ?_, ?_⟩
  · rw [← hfd]; exact compileM_eq_seq _ td
  · rw [← hfo]; exact compileM_eq_seq _ tos
  · rw [← hfu]; exact compileM_eq_seq _ tua
  · intro dms hok
    obtain ⟨hlen, hget⟩ := seq_ok_get _ _ _ hok
    exact ⟨hlen, fun i hi hm => (wrapCompile_ok _ _ _ _).mp (hget i hi hm)⟩

/-- Witness for C8 at concrete inputs: a two-chunk fan-out of a two-record
device family equals the sequential compilation. -/
theorem C8_parallel_order_preserved_witness :
    ChunkTree.compileM (wrapCompile (DeviceMatcher.try_from okEngine) Error.Device)
      (ChunkTree.node (ChunkTree.leaf [de1]) (ChunkTree.leaf [de2])) =
    compileFamilySeq (wrapCompile (DeviceMatcher.try_from okEngine) Error.Device)
      fileOk.device_parsers := by
  exact (C8_parallel_order_preserved okEngine fileOk
    (ChunkTree.node (ChunkTree.leaf [de1]) (ChunkTree.leaf [de2]))
    (ChunkTree.leaf [oe1]) (ChunkTree.leaf [ue1]) rfl rfl rfl
    (by
      intro e he
      have he2 : e ∈ [de1, de2] := he
      rcases List.mem_cons.mp he2 with h | h
      · subst h; exact ⟨_, rfl⟩
      · rw [List.mem_singleton] at h; subst h; exact ⟨_, rfl⟩)
    (by
      intro e he
      have he2 : e ∈ [oe1] := he
      rw [List.mem_singleton] at he2
      subst he2
      exact ⟨_, rfl⟩)
    (by
      intro e he
      have he2 : e ∈ [ue1] := he
      rw [List.mem_singleton] at he2
      subst he2
      exact ⟨_, rfl⟩)).1


end Uap
